import Mathlib

/-!
Verification of the level-serve repository (src/index.js and a second,
unnamed source file of the same module) against its specification.

The development shallowly embeds the JavaScript source: strings are Lean
`String`s, `String.prototype.split('/')` is `jsSplit`, the two `parseURL`
variants are `parseURL` (src/index.js) and `parseURL_000` (the unnamed file),
the sublevel handle graph is the inductive `DB`, and the HTTP handlers are
pure functions from request data to a response value.
-/

namespace LevelServe

/-- Model of JavaScript `String.prototype.split(sep)` for a one-character
separator, operating on the character list of the string.  As in JS,
splitting the empty string yields `[""]`, and separators at the ends or
adjacent to each other produce empty segments. -/
def jsSplit (c : Char) : List Char → List String
  | [] => [""]
  | x :: xs =>
    match jsSplit c xs with
    | [] => [""]
    | y :: ys => if x = c then "" :: y :: ys else String.mk (x :: y.data) :: ys

/-- Result of a successful URL parse: the object id and the sublevel chain. -/
structure Query where
  id : String
  sublevels : List String
deriving DecidableEq, Repr

/-- Model of `parseURL` from src/index.js:
`segs = url.split('/').slice(1)`; reject unless `segs[0] == 'files'` and
`segs[1]` is truthy (present and non-empty); otherwise the id is the last
segment and the sublevels are the segments strictly between. -/
def parseURL (url : String) : Option Query :=
  match (jsSplit '/' url.data).drop 1 with
  | f :: t :: rest =>
    if f = "files" ∧ t ≠ "" then
      some { id := (t :: rest).getLastD "", sublevels := (t :: rest).dropLast }
    else none
  | _ => none

/-- Model of `parseURL` from the unnamed source file:
`segs = url.split('/')`; reject unless `segs[1] == 'files'` and `segs[2]` is
truthy; the id is `segs[segs.length - 1]` and the sublevels are
`segs.slice(2, segs.length - 1)`. -/
def parseURL_000 (url : String) : Option Query :=
  match jsSplit '/' url.data with
  | _ :: f :: t :: rest =>
    if f = "files" ∧ t ≠ "" then
      some { id := (t :: rest).getLastD "", sublevels := (t :: rest).dropLast }
    else none
  | _ => none

/-- The sublevel part `n1/n2/.../nk/` of a canonical path. -/
def chainPath : List String → String
  | [] => ""
  | n :: ns => n ++ "/" ++ chainPath ns

/-- The canonical path `/files/n1/.../nk/id`. -/
def mkPath (ns : List String) (id : String) : String :=
  "/files/" ++ (chainPath ns ++ id)

/-- Model of a leveldb handle with sublevels: `db.sublevel(name)` yields a
child handle whose `_parent` is `db` and whose selecting name (`_prefix` in
the source) is `name`; the root handle has no parent. -/
inductive DB where
  | root : DB
  | sublevel (parent : DB) (pfx : String) : DB
deriving DecidableEq, Repr

/-- Model of `resolveSubLevel` (both source files): walk the chain left to
right, taking the named sublevel at each step. -/
def resolveSubLevel (db : DB) (sublevels : List String) : DB :=
  sublevels.foldl DB.sublevel db

/-- The namespace chain of a handle, outermost name first. -/
def DB.chain : DB → List String
  | .root => []
  | .sublevel p n => p.chain ++ [n]

/-- The server object: `function Server(db)` stores the handle in `this.db`. -/
structure Server where
  db : DB
deriving DecidableEq

/-- Construction with `new`: the guard `this instanceof Server` holds for the
fresh instance, so the body runs and sets `this.db = db`. -/
def serverNew (db : DB) : Server := { db := db }

/-- Invocation as a plain function: `this` is not a `Server` instance, so the
guard `if (!(this instanceof Server)) return new Server(db)` fires and the
call returns the instance built with `new`. -/
def serverCall (db : DB) : Server := serverNew db

/-- Model of the accumulator loop of `Server.prototype.url`:
`while (db._parent) { sublevels = db._prefix + '/' + sublevels; db = db._parent }`. -/
def urlLoop : DB → String → String
  | .root, sublevels => sublevels
  | .sublevel p n, sublevels => urlLoop p (n ++ "/" ++ sublevels)

/-- Model of `Server.prototype.url` (both source files): encode an id into the
canonical path of the server's handle. -/
def Server.url (s : Server) (id : String) : String :=
  "/files/" ++ urlLoop s.db "" ++ id

/-- The character of a decimal digit (`48` is the code of `0`). -/
def digitChar (d : Nat) : Char := Char.ofNat (48 + d)

/-- Decimal digits of `n`, most significant first, in front of `acc`: models
JavaScript number-to-string conversion of a nonnegative integer, as performed
by Node when a number is supplied as the value of a response header. -/
def natDecAux (n : Nat) (acc : List Char) : List Char :=
  if n < 10 then digitChar n :: acc
  else natDecAux (n / 10) (digitChar (n % 10) :: acc)
termination_by n
decreasing_by exact Nat.div_lt_self (by omega) (by omega)

/-- Decimal string of a nonnegative JavaScript number. -/
def natDec (n : Nat) : String := String.mk (natDecAux n [])

/-- The value of a decimal digit character, if it is one. -/
def decDigit? (c : Char) : Option Nat :=
  if 48 ≤ c.toNat ∧ c.toNat ≤ 57 then some (c.toNat - 48) else none

def parseDecAux : List Char → Nat → Option Nat
  | [], acc => some acc
  | c :: cs, acc =>
    match decDigit? c with
    | some d => parseDecAux cs (10 * acc + d)
    | none => none

/-- Model of JavaScript `ToNumber` on the strings the handler compares:
nonnegative decimal digit strings (as in JS, the empty string coerces to 0);
any other string coerces to NaN, modelled as `none`. -/
def jsToNumber? (s : String) : Option Nat := parseDecAux s.data 0

/-- JavaScript loose equality `etag == mtime` between the optional
`if-none-match` header (a string, or `undefined` when absent) and the numeric
version marker: `undefined == n` is false, and a string is compared through
`ToNumber`, where NaN compares unequal to everything. -/
def jsLooseEqNum (tok : Option String) (n : Nat) : Bool :=
  match tok with
  | none => false
  | some s =>
    match jsToNumber? s with
    | some m => m == n
    | none => false

/-- An HTTP request as the handler consumes it: the URL and the
`if-none-match` request header (absent or a string). -/
structure Request where
  url : String
  ifNoneMatch : Option String
deriving DecidableEq

/-- A stored object as the metadata probe and the read stream expose it: its
version marker (`obj.index`, a monotonic integer) and its payload bytes. -/
structure StoreObj where
  index : Nat
  content : String
deriving DecidableEq

/-- Outcome of the existence/metadata probe against the store collaborator: a
store error (carried as its string rendering), an empty stream (object
absent), or the object together with its version marker. -/
inductive Probe where
  | err (e : String)
  | absent
  | present (obj : StoreObj)
deriving DecidableEq

/-- The observable HTTP response: status code, headers in the order they are
set, the body written, and whether a payload stream was piped into it. -/
structure Response where
  statusCode : Nat
  headers : List (String × String)
  body : String
  streamed : Bool
deriving DecidableEq

/-- How a request terminates: either a response is written, or the
caller-supplied error callback is invoked with an error (rendered as a
string). -/
inductive ServeResult where
  | response (r : Response)
  | errorCallback (e : String)
deriving DecidableEq

/-- Rendering of `new Error(msg)` by `Error.prototype.toString`. -/
def jsErrorToString (msg : String) : String := "Error: " ++ msg

/-- Model of `createError` (identical in both source files): the default
error handler writes `res.writeHead(500)` and then the error's text when
`NODE_ENV != 'production'`, else the fixed generic `'oops.'`. -/
def createError (production : Bool) (err : String) : Response :=
  { statusCode := 500, headers := [],
    body := if production then "oops." else err, streamed := false }

/-- An error reaching the handler's `error` function: the caller's callback
when one was supplied, otherwise the default `createError` handler. -/
def errorFunnel (custom : Bool) (production : Bool) (err : String) : ServeResult :=
  if custom then .errorCallback err else .response (createError production err)

/-- Model of the local `send` function of the unnamed file's `serve`: set
`Content-Type` and `ETag` (the numeric marker, sent as its decimal string),
answer 304 with an empty body when the client token loosely equals the
marker (`etag == mtime`), else pipe the payload with the default 200
status. -/
def send (mime : String → String) (id : String) (obj : StoreObj)
    (inm : Option String) : Response :=
  let headers := [("Content-Type", mime id), ("ETag", natDec obj.index)]
  if jsLooseEqNum inm obj.index then
    { statusCode := 304, headers := headers, body := "", streamed := false }
  else
    { statusCode := 200, headers := headers, body := obj.content, streamed := true }

/-- Model of `Server.prototype.serve` from the unnamed source file.
`stores db id` abstracts the probe
`Store(db).createReadStream(id, {limit: 1, index: true})` together with the
subsequent full read, `mime` is the MIME-inference collaborator, `production`
the `NODE_ENV == 'production'` flag and `custom` whether the embedding caller
supplied an error callback.  `serve` defaults `error` before calling
`createNotFound(req, res, error)`, so `error` is always truthy there and the
not-found case always goes through the error funnel with
`new Error('File not found.')`. -/
def serve_000 (stores : DB → String → Probe) (mime : String → String)
    (production custom : Bool) (srv : Server) (req : Request) : ServeResult :=
  if req.url = "/favicon.ico" then
    .response { statusCode := 200, headers := [], body := "", streamed := false }
  else
    match parseURL_000 req.url with
    | none => errorFunnel custom production (jsErrorToString "File not found.")
    | some q =>
      match stores (resolveSubLevel srv.db q.sublevels) q.id with
      | .err e => errorFunnel custom production e
      | .absent => errorFunnel custom production (jsErrorToString "File not found.")
      | .present obj => .response (send mime q.id obj req.ifNoneMatch)

/-- The direct 404 response written by `createNotFound` when it has no error
callback: `res.writeHead(404); res.end('File not found.')`. -/
def notFoundResponse : Response :=
  { statusCode := 404, headers := [], body := "File not found.", streamed := false }

/-- Model of `serve` from src/index.js (existence-only policy):
`createNotFound(req, res)` is called without the error argument there, so
not-found always writes the direct 404; store errors still go to `error`. -/
def serve_index (stores : DB → String → Probe) (mime : String → String)
    (production custom : Bool) (srv : Server) (req : Request) : ServeResult :=
  if req.url = "/favicon.ico" then
    .response { statusCode := 200, headers := [], body := "", streamed := false }
  else
    match parseURL req.url with
    | none => .response notFoundResponse
    | some q =>
      match stores (resolveSubLevel srv.db q.sublevels) q.id with
      | .err e => errorFunnel custom production e
      | .absent => .response notFoundResponse
      | .present obj =>
        .response { statusCode := 200, headers := [("Content-Type", mime q.id)],
                    body := obj.content, streamed := true }

/-- Events the level-store write stream can emit after `Server.prototype.store`
registers its handlers, in emission order. -/
inductive WsEvent where
  | error (e : String)
  | close
deriving DecidableEq

/-- An invocation of the completion callback `fn`: with the error on failure,
with no argument on success. -/
inductive FnCall where
  | failure (e : String)
  | success
deriving DecidableEq

/-- Model of the two handlers `Server.prototype.store` attaches when a
callback `fn` is supplied: on each `error`/`close` event the handler runs
`if (called) return; called = true; fn(...)`.  The Boolean argument is the
`called` flag and the result collects the invocations of `fn` in order. -/
def storeCallbacks : List WsEvent → Bool → List FnCall
  | [], _ => []
  | .error e :: rest, called =>
    if called then storeCallbacks rest called
    else .failure e :: storeCallbacks rest true
  | .close :: rest, called =>
    if called then storeCallbacks rest called
    else .success :: storeCallbacks rest true

/-- The callback invocation the first event produces. -/
def firstCall : WsEvent → FnCall
  | .error e => .failure e
  | .close => .success

def storesW : DB → String → Probe :=
  fun db i => if db = DB.root ∧ i = "a.txt" then .present ⟨7, "payload"⟩ else .absent

def mimeW : String → String := fun _ => "text/plain"

def storesErrW : DB → String → Probe := fun _ _ => .err "leveldb: io error"

example : parseURL "/files/a" = some { id := "a", sublevels := [] } := by decide

example : parseURL "/files/a/b/c" = some { id := "c", sublevels := ["a", "b"] } := by decide

example : parseURL "/files" = none := by decide

example : parseURL "/files/" = none := by decide

example : parseURL "/files//x" = none := by decide

example : parseURL "/files/x/" = some { id := "", sublevels := ["x"] } := by decide

example : parseURL "/nonsense" = none := by decide

example : parseURL "" = none := by decide

example : parseURL_000 "/files/a/b/c" = some { id := "c", sublevels := ["a", "b"] } := by decide

example : parseURL_000 "/files//x" = none := by decide

theorem jsSplit_ne_nil (c : Char) (l : List Char) : jsSplit c l ≠ [] := by
  cases l with
  | nil => simp [jsSplit]
  | cons x xs =>
    simp only [jsSplit]
    cases jsSplit c xs with
    | nil => simp
    | cons y ys => by_cases h : x = c <;> simp [h]

theorem jsSplit_sep_cons (c : Char) (rest : List Char) :
    jsSplit c (c :: rest) = "" :: jsSplit c rest := by
  cases h : jsSplit c rest with
  | nil => exact absurd h (jsSplit_ne_nil c rest)
  | cons y ys => simp [jsSplit, h]

theorem jsSplit_append_sep (c : Char) (l rest : List Char) (hl : c ∉ l) :
    jsSplit c (l ++ c :: rest) = String.mk l :: jsSplit c rest := by
  induction l with
  | nil => simpa using jsSplit_sep_cons c rest
  | cons x xs ih =>
    have hx : x ≠ c := fun h => hl (h ▸ List.mem_cons_self x xs)
    have hxs : c ∉ xs := fun h => hl (List.mem_cons_of_mem x h)
    simp only [List.cons_append, jsSplit, List.append_eq]
    rw [ih hxs]
    simp [hx]

theorem jsSplit_no_sep (c : Char) (l : List Char) (hl : c ∉ l) :
    jsSplit c l = [String.mk l] := by
  induction l with
  | nil => rfl
  | cons x xs ih =>
    have hx : x ≠ c := fun h => hl (h ▸ List.mem_cons_self x xs)
    have hxs : c ∉ xs := fun h => hl (List.mem_cons_of_mem x h)
    simp only [jsSplit, ih hxs]
    simp [hx]

theorem strMk_data (s : String) : String.mk s.data = s := by
  cases s
  rfl

theorem strData_append (s t : String) : (s ++ t).data = s.data ++ t.data :=
  String.data_append s t

theorem strData_injective (s t : String) (h : s.data = t.data) : s = t := by
  cases s
  cases t
  exact congrArg String.mk h

theorem jsSplit_chainPath (ns : List String) (id : String)
    (h1 : ∀ n ∈ ns, ('/' : Char) ∉ n.data) (h2 : ('/' : Char) ∉ id.data) :
    jsSplit '/' (chainPath ns ++ id).data = ns ++ [id] := by
  induction ns with
  | nil =>
    have : (chainPath [] ++ id).data = id.data := by
      simp [chainPath, strData_append]
    rw [this, jsSplit_no_sep '/' id.data h2, strMk_data]
    rfl
  | cons n ns ih =>
    have hdata : (chainPath (n :: ns) ++ id).data
        = n.data ++ '/' :: (chainPath ns ++ id).data := by
      simp [chainPath, strData_append]
    rw [hdata, jsSplit_append_sep '/' n.data _ (h1 n (List.mem_cons_self n ns)),
      ih (fun m hm => h1 m (List.mem_cons_of_mem n hm)), strMk_data]
    rfl

theorem jsSplit_mkPath (ns : List String) (id : String)
    (h1 : ∀ n ∈ ns, ('/' : Char) ∉ n.data) (h2 : ('/' : Char) ∉ id.data) :
    jsSplit '/' (mkPath ns id).data = "" :: "files" :: (ns ++ [id]) := by
  have hdata : (mkPath ns id).data
      = '/' :: ("files".data ++ '/' :: (chainPath ns ++ id).data) := by
    rw [mkPath, strData_append]
    rfl
  rw [hdata, jsSplit_sep_cons,
    jsSplit_append_sep '/' "files".data _ (by decide), strMk_data,
    jsSplit_chainPath ns id h1 h2]

theorem parseURL_mkPath (ns : List String) (id : String)
    (h1 : ∀ n ∈ ns, ('/' : Char) ∉ n.data) (h2 : ('/' : Char) ∉ id.data)
    (h3 : (ns ++ [id]).headD "" ≠ "") :
    parseURL (mkPath ns id) = some { id := id, sublevels := ns } := by
  cases ns with
  | nil =>
    have hid : id ≠ "" := by simpa using h3
    simp [parseURL, jsSplit_mkPath [] id h1 h2, hid]
  | cons n ns' =>
    have hn : n ≠ "" := by simpa using h3
    have hcat : n :: (ns' ++ [id]) = (n :: ns') ++ [id] := rfl
    simp only [parseURL, jsSplit_mkPath (n :: ns') id h1 h2]
    simp only [List.cons_append, List.drop_succ_cons, List.drop_zero]
    rw [hcat, List.getLastD_concat, List.dropLast_concat]
    simp [hn]

theorem parseURL_000_eq (url : String) : parseURL_000 url = parseURL url := by
  unfold parseURL_000 parseURL
  rcases h : jsSplit '/' url.data with _ | ⟨a, _ | ⟨b, _ | ⟨c', l⟩⟩⟩
  · exact absurd h (jsSplit_ne_nil '/' url.data)
  · rfl
  · rfl
  · rfl

theorem urlLoop_resolve (ns : List String) (db : DB) (acc : String) :
    urlLoop (resolveSubLevel db ns) acc = urlLoop db (chainPath ns ++ acc) := by
  induction ns generalizing db acc with
  | nil =>
    show urlLoop db acc = urlLoop db ("" ++ acc)
    rw [String.empty_append]
  | cons n ns ih =>
    show urlLoop (resolveSubLevel (DB.sublevel db n) ns) acc
        = urlLoop db (chainPath (n :: ns) ++ acc)
    rw [ih]
    show urlLoop db (n ++ "/" ++ (chainPath ns ++ acc))
        = urlLoop db ((n ++ "/" ++ chainPath ns) ++ acc)
    simp [String.append_assoc]

theorem url_resolve (ns : List String) (id : String) :
    Server.url ⟨resolveSubLevel DB.root ns⟩ id = mkPath ns id := by
  show "/files/" ++ urlLoop (resolveSubLevel DB.root ns) "" ++ id
      = "/files/" ++ (chainPath ns ++ id)
  rw [urlLoop_resolve ns DB.root ""]
  show "/files/" ++ (chainPath ns ++ "") ++ id = "/files/" ++ (chainPath ns ++ id)
  rw [String.append_empty, String.append_assoc]

theorem chain_resolve (ns : List String) (db : DB) :
    (resolveSubLevel db ns).chain = db.chain ++ ns := by
  induction ns generalizing db with
  | nil => simp [resolveSubLevel]
  | cons n ns ih =>
    show (resolveSubLevel (DB.sublevel db n) ns).chain = db.chain ++ n :: ns
    rw [ih]
    simp [DB.chain]

theorem decDigit?_digitChar (d : Nat) (h : d < 10) :
    decDigit? (digitChar d) = some d := by
  interval_cases d <;> rfl

theorem natDecAux_acc (n : Nat) (acc : List Char) :
    natDecAux n acc = natDecAux n [] ++ acc := by
  induction n using Nat.strong_induction_on generalizing acc with
  | _ n ih =>
    by_cases h : n < 10
    · conv_lhs => rw [natDecAux.eq_def]
      conv_rhs => rw [natDecAux.eq_def]
      simp [h]
    · conv_lhs => rw [natDecAux.eq_def]
      conv_rhs => rw [natDecAux.eq_def]
      simp only [h, if_neg, ite_false]
      rw [ih (n / 10) (Nat.div_lt_self (by omega) (by omega)) (digitChar (n % 10) :: acc),
        ih (n / 10) (Nat.div_lt_self (by omega) (by omega)) [digitChar (n % 10)]]
      simp [List.append_assoc]

theorem parseDecAux_append (l1 l2 : List Char) (a : Nat) :
    parseDecAux (l1 ++ l2) a
      = match parseDecAux l1 a with
        | some b => parseDecAux l2 b
        | none => none := by
  induction l1 generalizing a with
  | nil => rfl
  | cons c cs ih =>
    simp only [List.cons_append, parseDecAux]
    cases decDigit? c with
    | none => rfl
    | some d => exact ih (10 * a + d)

theorem parseDecAux_natDecAux (n : Nat) :
    ∀ a, parseDecAux (natDecAux n []) a
      = some (a * 10 ^ (natDecAux n []).length + n) := by
  induction n using Nat.strong_induction_on with
  | _ n ih =>
    intro a
    by_cases h : n < 10
    · have hx : natDecAux n [] = [digitChar n] := by
        rw [natDecAux.eq_def]
        simp [h]
      rw [hx]
      simp [parseDecAux, decDigit?_digitChar n h]
      omega
    · have hx : natDecAux n [] = natDecAux (n / 10) [] ++ [digitChar (n % 10)] := by
        rw [natDecAux.eq_def]
        simp only [h, if_neg, ite_false]
        exact natDecAux_acc (n / 10) [digitChar (n % 10)]
      rw [hx, parseDecAux_append,
        ih (n / 10) (Nat.div_lt_self (by omega) (by omega)) a]
      simp [parseDecAux, decDigit?_digitChar (n % 10) (Nat.mod_lt n (by omega))]
      calc 10 * (a * 10 ^ (natDecAux (n / 10) []).length + n / 10) + n % 10
          = a * (10 ^ (natDecAux (n / 10) []).length * 10)
            + (10 * (n / 10) + n % 10) := by ring
        _ = a * 10 ^ ((natDecAux (n / 10) []).length + 1) + n := by
            rw [← pow_succ, Nat.div_add_mod]

theorem jsToNumber?_natDec (n : Nat) : jsToNumber? (natDec n) = some n := by
  show parseDecAux (String.mk (natDecAux n [])).data 0 = some n
  rw [show (String.mk (natDecAux n [])).data = natDecAux n [] from rfl,
    parseDecAux_natDecAux n 0]
  simp

theorem jsLooseEqNum_none (n : Nat) : jsLooseEqNum none n = false := rfl

theorem jsLooseEqNum_natDec (m n : Nat) :
    jsLooseEqNum (some (natDec m)) n = (m == n) := by
  simp [jsLooseEqNum, jsToNumber?_natDec]

theorem storeCallbacks_called (events : List WsEvent) :
    storeCallbacks events true = [] := by
  induction events with
  | nil => rfl
  | cons e rest ih => cases e <;> simp [storeCallbacks, ih]

theorem dropLast_append_getLastD {α : Type} :
    ∀ (t : α) (rest : List α) (d : α),
      (t :: rest).dropLast ++ [(t :: rest).getLastD d] = t :: rest
  | _, [], _ => rfl
  | t, r :: rs, d => by
    rw [List.dropLast_cons₂, List.getLastD_cons, List.cons_append,
      dropLast_append_getLastD r rs t]

/-- Inversion of a successful parse: the segments after the leading empty one
are `files`, a non-empty second segment and a tail; the id is the last of
these and the sublevels the ones strictly between. -/
theorem parseURL_inv (url : String) (q : Query) (h : parseURL url = some q) :
    ∃ t rest, (jsSplit '/' url.data).drop 1 = "files" :: t :: rest
      ∧ t ≠ "" ∧ q.id = (t :: rest).getLastD "" ∧ q.sublevels = (t :: rest).dropLast := by
  unfold parseURL at h
  split at h
  case _ f t rest heq =>
    split at h
    case isTrue hc =>
      have hq := Option.some.inj h
      subst hq
      exact ⟨t, rest, by rw [heq, hc.1], hc.2, rfl, rfl⟩
    case isFalse hc => exact Option.noConfusion h
  case _ => exact Option.noConfusion h

/-- C1 (counterexample): encode is not an exact left inverse of decode for
every object id.  For the handle resolved from the empty chain (the root) and
the id `a/b`, `url` yields `/files/a/b`, which decodes to id `b` with chain
`["a"]`, not to the pair `{a/b, []}`. -/
theorem c1_counterexample :
    Server.url ⟨resolveSubLevel DB.root []⟩ "a/b" = "/files/a/b"
    ∧ parseURL (Server.url ⟨resolveSubLevel DB.root []⟩ "a/b")
        = some { id := "b", sublevels := ["a"] }
    ∧ parseURL (Server.url ⟨resolveSubLevel DB.root []⟩ "a/b")
        ≠ some { id := "a/b", sublevels := [] } := by
  refine ⟨by decide, by decide, by decide⟩

/-- C1 (amended): for every handle produced by the namespace resolver from a
chain of slash-free names starting at the root and every slash-free object
id, provided the first path segment after the prefix (the first name, or the
id when the chain is empty) is non-empty, `url` yields the canonical path
`/files/n1/.../nk/id` and decoding it returns exactly the id and the
handle's chain. -/
theorem c1_encode_decode (ns : List String) (id : String)
    (h1 : ∀ n ∈ ns, ('/' : Char) ∉ n.data) (h2 : ('/' : Char) ∉ id.data)
    (h3 : (ns ++ [id]).headD "" ≠ "") :
    Server.url ⟨resolveSubLevel DB.root ns⟩ id = mkPath ns id
    ∧ (resolveSubLevel DB.root ns).chain = ns
    ∧ parseURL (Server.url ⟨resolveSubLevel DB.root ns⟩ id)
        = some { id := id, sublevels := (resolveSubLevel DB.root ns).chain } := by
  have hchain : (resolveSubLevel DB.root ns).chain = ns := by
    simpa [DB.chain] using chain_resolve ns DB.root
  refine ⟨url_resolve ns id, hchain, ?_⟩
  rw [url_resolve ns id, hchain]
  exact parseURL_mkPath ns id h1 h2 h3

theorem c1_encode_decode_witness :
    Server.url ⟨resolveSubLevel DB.root ["a"]⟩ "b.txt" = mkPath ["a"] "b.txt"
    ∧ (resolveSubLevel DB.root ["a"]).chain = ["a"]
    ∧ parseURL (Server.url ⟨resolveSubLevel DB.root ["a"]⟩ "b.txt")
        = some { id := "b.txt", sublevels := (resolveSubLevel DB.root ["a"]).chain } :=
  c1_encode_decode ["a"] "b.txt" (by decide) (by decide) (by decide)

/-- C2: for every valid path `/files/n1/.../nk/id` (built from slash-free
segments whose first segment after the prefix is non-empty, which is exactly
when decode accepts), decode returns the pair of the last segment as id and
the segments strictly between the prefix and the id, in order — in both
source files' `parseURL`. -/
theorem c2_decode_valid_path (ns : List String) (id : String)
    (h1 : ∀ n ∈ ns, ('/' : Char) ∉ n.data) (h2 : ('/' : Char) ∉ id.data)
    (h3 : (ns ++ [id]).headD "" ≠ "") :
    parseURL (mkPath ns id) = some { id := id, sublevels := ns }
    ∧ parseURL_000 (mkPath ns id) = some { id := id, sublevels := ns } := by
  refine ⟨parseURL_mkPath ns id h1 h2 h3, ?_⟩
  rw [parseURL_000_eq]
  exact parseURL_mkPath ns id h1 h2 h3

theorem c2_decode_valid_path_witness :
    parseURL (mkPath ["a", "b"] "c") = some { id := "c", sublevels := ["a", "b"] }
    ∧ parseURL_000 (mkPath ["a", "b"] "c") = some { id := "c", sublevels := ["a", "b"] } :=
  c2_decode_valid_path ["a", "b"] "c" (by decide) (by decide) (by decide)

/-- C3 (counterexample): on the path `/files//x` the first segment equals
`files` and further segments exist, yet decode yields no match — the code
additionally requires the second segment to be non-empty, refuting the
stated acceptance condition. -/
theorem c3_counterexample :
    ((jsSplit '/' (String.data "/files//x")).drop 1).headD "" = "files"
    ∧ 2 ≤ ((jsSplit '/' (String.data "/files//x")).drop 1).length
    ∧ parseURL "/files//x" = none
    ∧ parseURL_000 "/files//x" = none := by
  refine ⟨by decide, by decide, by decide, by decide⟩

/-- C3 (amended): decode succeeds iff the first segment equals the literal
prefix `files` and a further segment exists that is non-empty; every other
path yields a no-match result, and decode is a total function — it never
throws. -/
theorem c3_accepts_iff (url : String) :
    (parseURL url).isSome = true
      ↔ (((jsSplit '/' url.data).drop 1).headD "" = "files"
          ∧ ((jsSplit '/' url.data).drop 1).getD 1 "" ≠ "") := by
  rcases hs : (jsSplit '/' url.data).drop 1 with _ | ⟨f, _ | ⟨t, rest⟩⟩ <;>
    unfold parseURL <;> rw [hs] <;> simp

/-- C8 (counterexample): the path `/files/x/` is accepted by decode and yields
the empty-string id (with chain `["x"]`), in both source files' `parseURL`. -/
theorem c8_counterexample :
    parseURL "/files/x/" = some { id := "", sublevels := ["x"] }
    ∧ parseURL_000 "/files/x/" = some { id := "", sublevels := ["x"] } := by
  refine ⟨by decide, by decide⟩

/-- C8 (amended): in every accepted path the first segment after the prefix is
non-empty; hence the id is non-empty whenever the namespace chain is empty,
but when the chain is non-empty the id — the last segment — may be the empty
string (trailing slash). -/
theorem c8_first_segment_nonempty (url : String) (q : Query)
    (h : parseURL url = some q) :
    (q.sublevels ++ [q.id]).headD "" ≠ ""
    ∧ (q.sublevels = [] → q.id ≠ "") := by
  obtain ⟨t, rest, hseg, ht, hid, hsub⟩ := parseURL_inv url q h
  have hcat : q.sublevels ++ [q.id] = t :: rest := by
    rw [hsub, hid, dropLast_append_getLastD]
  constructor
  · rw [hcat]
    simpa using ht
  · intro hnil
    rw [hnil, List.nil_append] at hcat
    cases rest with
    | nil =>
      have hqt : q.id = t := by injection hcat
      rw [hqt]
      exact ht
    | cons r rs =>
      have hlen := congrArg List.length hcat
      simp at hlen

theorem c8_first_segment_nonempty_witness :
    ((["x"] : List String) ++ [""]).headD "" ≠ ""
    ∧ ((["x"] : List String) = [] → ("" : String) ≠ "") :=
  c8_first_segment_nonempty "/files/x/" { id := "", sublevels := ["x"] } (by decide)

/-- C9: decode does not strip query strings — for slash-free `s` and `q`, the
path `/files/s?q` is accepted and the whole `s?q` becomes the object id
(with an empty chain); that id is then what the handler passes to the store
lookup and the MIME collaborator. -/
theorem c9_query_string_in_id (s q : String)
    (hs : ('/' : Char) ∉ s.data) (hq : ('/' : Char) ∉ q.data) :
    parseURL ("/files/" ++ s ++ "?" ++ q)
      = some { id := s ++ "?" ++ q, sublevels := [] } := by
  have hdata : ("/files/" ++ s ++ "?" ++ q) = mkPath [] (s ++ "?" ++ q) := by
    apply strData_injective
    simp [mkPath, chainPath, strData_append, String.empty_append]
  have h2 : ('/' : Char) ∉ (s ++ "?" ++ q).data := by
    rw [strData_append, strData_append]
    intro hmem
    rcases List.mem_append.1 hmem with hmem1 | hmem2
    · rcases List.mem_append.1 hmem1 with hmem3 | hmem4
      · exact hs hmem3
      · revert hmem4
        decide
    · exact hq hmem2
  have h3 : (([] : List String) ++ [s ++ "?" ++ q]).headD "" ≠ "" := by
    simp only [List.nil_append, List.headD_cons]
    intro hcontra
    have hd := congrArg String.data hcontra
    rw [strData_append, strData_append] at hd
    simp at hd
  rw [hdata]
  exact parseURL_mkPath [] (s ++ "?" ++ q) (by simp) h2 h3

theorem c9_query_string_in_id_witness :
    parseURL ("/files/" ++ "a" ++ "?" ++ "b")
      = some { id := "a" ++ "?" ++ "b", sublevels := [] } :=
  c9_query_string_in_id "a" "b" (by decide) (by decide)

/-- C10: invoking the `Server` constructor as a plain function (the guard
`this instanceof Server` fails, so it returns `new Server(db)`) produces the
same instance as construction with `new`, and its `db` field is the
argument. -/
theorem c10_call_without_new (db : DB) :
    serverCall db = serverNew db ∧ (serverCall db).db = db :=
  ⟨rfl, rfl⟩

theorem parseURL_000_ne_favicon (url : String) (q : Query)
    (h : parseURL_000 url = some q) : url ≠ "/favicon.ico" := by
  intro hf
  rw [hf] at h
  have hnone : parseURL_000 "/favicon.ico" = none := by decide
  rw [hnone] at h
  exact Option.noConfusion h

/-- C4 (code bug): with no custom error callback (and NODE_ENV unset), the
unnamed file's handler answers a request whose path does not decode — or
whose object is absent — with a 500 carrying `Error: File not found.`,
because `serve` defaults `error` before building `createNotFound`, making
the direct-404 branch unreachable.  src/index.js's handler (and the spec's
`GET /nonsense → 404` scenario) writes the direct 404. -/
theorem c4_not_found_funnelled_to_error :
    serve_000 (fun _ _ => Probe.absent) (fun _ => "application/octet-stream")
      false false ⟨DB.root⟩ ⟨"/nonsense", none⟩
      = .response { statusCode := 500, headers := [],
                    body := "Error: File not found.", streamed := false }
    ∧ serve_000 (fun _ _ => Probe.absent) (fun _ => "application/octet-stream")
      false false ⟨DB.root⟩ ⟨"/files/x", none⟩
      = .response { statusCode := 500, headers := [],
                    body := "Error: File not found.", streamed := false }
    ∧ serve_index (fun _ _ => Probe.absent) (fun _ => "application/octet-stream")
      false false ⟨DB.root⟩ ⟨"/nonsense", none⟩
      = .response notFoundResponse
    ∧ serve_index (fun _ _ => Probe.absent) (fun _ => "application/octet-stream")
      false false ⟨DB.root⟩ ⟨"/files/x", none⟩
      = .response notFoundResponse := by
  refine ⟨by decide, by decide, by decide, by decide⟩

/-- C5: conditional-cache policy of the unnamed file's handler.  For an
existing object, a request whose `if-none-match` token is the marker's
decimal string gets 304 with empty body, the same `Content-Type` and `ETag`
headers, and no payload stream; an absent token, or a stale token (the
decimal string of a different marker value), gets 200 with the full payload
streamed and `ETag` set to the current marker. -/
theorem c5_conditional_cache (stores : DB → String → Probe)
    (mime : String → String) (production custom : Bool) (srv : Server)
    (url : String) (q : Query) (obj : StoreObj) (inm : Option String)
    (hq : parseURL_000 url = some q)
    (hst : stores (resolveSubLevel srv.db q.sublevels) q.id = .present obj) :
    (inm = some (natDec obj.index) →
      serve_000 stores mime production custom srv ⟨url, inm⟩
        = .response { statusCode := 304,
                      headers := [("Content-Type", mime q.id), ("ETag", natDec obj.index)],
                      body := "", streamed := false })
    ∧ (inm = none →
      serve_000 stores mime production custom srv ⟨url, inm⟩
        = .response { statusCode := 200,
                      headers := [("Content-Type", mime q.id), ("ETag", natDec obj.index)],
                      body := obj.content, streamed := true })
    ∧ (∀ m, m ≠ obj.index → inm = some (natDec m) →
      serve_000 stores mime production custom srv ⟨url, inm⟩
        = .response { statusCode := 200,
                      headers := [("Content-Type", mime q.id), ("ETag", natDec obj.index)],
                      body := obj.content, streamed := true }) := by
  have hfav : url ≠ "/favicon.ico" := parseURL_000_ne_favicon url q hq
  refine ⟨?_, ?_, ?_⟩
  · intro h
    subst h
    simp [serve_000, hfav, hq, hst, send, jsLooseEqNum_natDec]
  · intro h
    subst h
    simp [serve_000, hfav, hq, hst, send, jsLooseEqNum]
  · intro m hm h
    subst h
    simp [serve_000, hfav, hq, hst, send, jsLooseEqNum_natDec, hm]

theorem c5_conditional_cache_witness :
    serve_000 storesW mimeW false false ⟨DB.root⟩ ⟨"/files/a.txt", some (natDec 7)⟩
      = .response { statusCode := 304,
                    headers := [("Content-Type", "text/plain"), ("ETag", natDec 7)],
                    body := "", streamed := false }
    ∧ serve_000 storesW mimeW false false ⟨DB.root⟩ ⟨"/files/a.txt", none⟩
      = .response { statusCode := 200,
                    headers := [("Content-Type", "text/plain"), ("ETag", natDec 7)],
                    body := "payload", streamed := true }
    ∧ natDec 7 = "7" := by
  refine ⟨?_, ?_, ?_⟩
  · exact (c5_conditional_cache storesW mimeW false false ⟨DB.root⟩ "/files/a.txt"
      ⟨"a.txt", []⟩ ⟨7, "payload"⟩ (some (natDec 7)) (by decide) (by decide)).1 rfl
  · exact (c5_conditional_cache storesW mimeW false false ⟨DB.root⟩ "/files/a.txt"
      ⟨"a.txt", []⟩ ⟨7, "payload"⟩ none (by decide) (by decide)).2.1 rfl
  · rw [natDec, natDecAux.eq_def]
    decide

/-- C6: with a completion callback supplied, `Server.prototype.store` invokes
it exactly once — with the error if an error event comes first, with no
argument if a close event comes first — whichever nonempty sequence of
error/close events the write stream emits. -/
theorem c6_callback_exactly_once (events : List WsEvent) (h : events ≠ []) :
    storeCallbacks events false = [firstCall (events.headD .close)]
    ∧ (storeCallbacks events false).length = 1 := by
  cases events with
  | nil => exact absurd rfl h
  | cons e rest =>
    cases e <;>
      simp [storeCallbacks, firstCall, storeCallbacks_called]

theorem c6_callback_exactly_once_witness :
    storeCallbacks [WsEvent.error "disk failure", WsEvent.close] false
      = [firstCall ((([WsEvent.error "disk failure", WsEvent.close]).headD .close))]
    ∧ (storeCallbacks [WsEvent.error "disk failure", WsEvent.close] false).length = 1 :=
  c6_callback_exactly_once [WsEvent.error "disk failure", WsEvent.close] (by decide)

/-- C7: when the metadata probe fails with a store error and the caller
supplied no custom error callback, the unnamed file's handler answers with
the default `createError` handler: status 500, and the body is the error's
text exactly when `NODE_ENV != 'production'`, else the fixed generic
`oops.` independent of the error. -/
theorem c7_probe_error_500 (stores : DB → String → Probe)
    (mime : String → String) (production : Bool) (e : String) (srv : Server)
    (url : String) (q : Query) (inm : Option String)
    (hq : parseURL_000 url = some q)
    (hst : stores (resolveSubLevel srv.db q.sublevels) q.id = .err e) :
    serve_000 stores mime production false srv ⟨url, inm⟩
      = .response (createError production e)
    ∧ (createError production e).statusCode = 500
    ∧ (production = false → (createError production e).body = e)
    ∧ (production = true → (createError production e).body = "oops.") := by
  have hfav : url ≠ "/favicon.ico" := parseURL_000_ne_favicon url q hq
  refine ⟨?_, rfl, ?_, ?_⟩
  · simp [serve_000, hfav, hq, hst, errorFunnel]
  · intro hp
    subst hp
    rfl
  · intro hp
    subst hp
    rfl

theorem c7_probe_error_500_witness :
    serve_000 storesErrW mimeW false false ⟨DB.root⟩ ⟨"/files/a.txt", none⟩
      = .response (createError false "leveldb: io error")
    ∧ (createError false "leveldb: io error").statusCode = 500
    ∧ (false = false → (createError false "leveldb: io error").body = "leveldb: io error")
    ∧ (false = true → (createError false "leveldb: io error").body = "oops.") :=
  c7_probe_error_500 storesErrW mimeW false "leveldb: io error" ⟨DB.root⟩
    "/files/a.txt" ⟨"a.txt", []⟩ none (by decide) (by decide)

end LevelServe

